import Mathlib

/-!
Verification of the request execution and retry engine of the `github` Go
client library.  The source ships several variants of the executor; the
definitions below are shallow embeddings of the cited functions:

* `getRateLimit` (ratelimit.go) — rate-limit header extraction;
* `checkRetry`, `calcBackoff`, `goDo` (the part_015 executor variant with
  the retry classifier, the `max retry attempts exceeded` error and the
  select-based wait);
* `calculateBackoff` (the pure part_003 variant);
* `clientCalculateBackoff`, `waitRateLimit`, `goDoV1` (the github.go
  executor variant, which sleeps via `time.Sleep` and whose backoff method
  writes default waits back into the client);
* `buildResponse` / `parseLinkHeaderGo` (github.go) — envelope building and
  Link-header pagination parsing.

Go `string` values are modelled as `List Char`; Go `time.Duration` as `Int`
(nanoseconds); the float64 arithmetic of the backoff calculators is
modelled over `ℚ`, which is exact for the decimal/second-scale values the
code manipulates.
-/

namespace Github

/-- Go `time.Duration`: a count of nanoseconds held in an `int64`. -/
abbrev Duration := Int

/-- Go `time.Second` expressed in nanoseconds. -/
def nsPerSec : Int := 1000000000

/-- `time.Duration.Seconds()`: the duration as a float64 number of seconds,
modelled exactly over `ℚ`. -/
def durSeconds (d : Duration) : ℚ := (d : ℚ) / (nsPerSec : ℚ)

/-- Go conversion `time.Duration(f)` of a float64 `f`: truncation toward
zero, modelled on `ℚ`. -/
def ratTrunc (q : ℚ) : Int := if q < 0 then -(Int.floor (-q)) else Int.floor q

/-- Decimal value of a digit string (no validity check). -/
def digitsVal (ds : List Char) : Nat :=
  ds.foldl (fun a c => a * 10 + (c.toNat - 48)) 0

/-- Decimal-digit run accepted by Go's `strconv` (base 10, no underscores):
nonempty and all characters in `0`..`9`. -/
def parseUint10 (ds : List Char) : Option Nat :=
  if ds = [] then none
  else if ds.all (fun c => '0' ≤ c && c ≤ '9') then some (digitsVal ds)
  else none

/-- Go `strconv.ParseInt(s, 10, 64)` — and `strconv.Atoi` on a 64-bit
platform: optional single sign, then decimal digits; errors (here: `none`)
on an empty string, a non-digit character, or a value outside
`[-2^63, 2^63-1]`. -/
def atoi? (s : List Char) : Option Int :=
  let signed : Bool × List Char :=
    match s with
    | '-' :: rest => (true, rest)
    | '+' :: rest => (false, rest)
    | _ => (false, s)
  match parseUint10 signed.2 with
  | none => none
  | some n =>
    if signed.1 then
      if n ≤ 2 ^ 63 then some (-(n : Int)) else none
    else
      if n ≤ 2 ^ 63 - 1 then some (n : Int) else none

/-- The `RateLimit` struct (ratelimit.go): quota snapshot read from
response headers.  Go zero values are the field defaults. -/
structure RateLimit where
  Limit : Int := 0
  Remaining : Int := 0
  Used : Int := 0
  Reset : Int := 0
deriving Repr, DecidableEq

/-- A response header set as seen through Go's `http.Header.Get`: the
empty list plays the role of Go's `""` for a missing header. -/
abbrev Headers := String → List Char

def rateLimitHeader : String := "X-RateLimit-Limit"

def rateRemainigHeader : String := "X-RateLimit-Remaining"

def rateResetHeader : String := "X-RateLimit-Reset"

def rateUsedHeader : String := "X-RateLimit-Used"

/-- `getRateLimit` (ratelimit.go): reads the four quota headers
independently; a missing (`""`) or unparsable value leaves the field at
its zero value; no error is ever produced. -/
def getRateLimit (h : Headers) : RateLimit :=
  let rl : RateLimit := {}
  let rl : RateLimit :=
    if h rateLimitHeader ≠ [] then
      match atoi? (h rateLimitHeader) with
      | some intL => { rl with Limit := intL }
      | none => rl
    else rl
  let rl : RateLimit :=
    if h rateRemainigHeader ≠ [] then
      match atoi? (h rateRemainigHeader) with
      | some intRm => { rl with Remaining := intRm }
      | none => rl
    else rl
  let rl : RateLimit :=
    if h rateResetHeader ≠ [] then
      match atoi? (h rateResetHeader) with
      | some intRes => { rl with Reset := intRes }
      | none => rl
    else rl
  let rl : RateLimit :=
    if h rateUsedHeader ≠ [] then
      match atoi? (h rateUsedHeader) with
      | some intUsed => { rl with Used := intUsed }
      | none => rl
    else rl
  rl

/-- The fields of a received `Response` envelope that the part_015 retry
loop inspects, together with the loop-relevant outcomes the environment
determines for this response: whether `newResponse` failed on it, whether
decoding its body into the target succeeds, and what a configured
rate-limit handler would return for it. -/
structure RespV3 where
  StatusCode : Nat
  Remaining : Int
  Reset : Int
  buildErr : Option Nat := none
  decodeOk : Bool := true
  handlerErr : Option Nat := none
deriving Repr, DecidableEq

/-- `checkRetry` (part_015): retry on 403/429 with exhausted quota, or on
500/502/503. -/
def checkRetry (resp : RespV3) : Bool :=
  let serviceShutted : List Nat := [403, 429]
  if serviceShutted.contains resp.StatusCode && resp.Remaining == 0 then
    true
  else
    let serviceUnavailable : List Nat := [500, 502, 503]
    serviceUnavailable.contains resp.StatusCode

/-- `calculateBackoff` (part_003 variant, a pure function): zero min/max
waits are replaced by the defaults 1s/60s, then
`wait = waitMin.Seconds() * 2^attempt` capped at `waitMax.Seconds()` and
converted back to a duration.  float64 arithmetic modelled over `ℚ`. -/
def calculateBackoff (attempt : Nat) (waitMin waitMax : Duration) : Duration :=
  let waitMin : Duration := if durSeconds waitMin = 0 then nsPerSec else waitMin
  let waitMax : Duration := if durSeconds waitMax = 0 then 60 * nsPerSec else waitMax
  let wait : ℚ := durSeconds waitMin * 2 ^ attempt
  let wait : ℚ := if wait > durSeconds waitMax then durSeconds waitMax else wait
  ratTrunc (wait * (nsPerSec : ℚ))

/-- The configuration fields of `Client` (github.go) that the executor
reads.  Hooks are omitted (side-effect only); the handler's presence is
the flag `hasHandler`, its per-response result lives with the response. -/
structure ClientConf where
  retryMax : Int
  retryWaitMin : Duration
  retryWaitMax : Duration
  rateLimitRetry : Bool
  hasHandler : Bool
  token : String := ""
deriving Repr, DecidableEq

/-- The method `(*Client).calculateBackoff` (ratelimit.go): unlike the
pure part_003 variant it ASSIGNS `c.retryWaitMin = 5s` and
`c.retryWaitMax = 60s` when the configured values are zero, so it returns
the computed duration together with the possibly-updated client. -/
def clientCalculateBackoff (c : ClientConf) (attempt : Nat) : Duration × ClientConf :=
  let c : ClientConf :=
    if durSeconds c.retryWaitMin = 0 then { c with retryWaitMin := 5 * nsPerSec } else c
  let c : ClientConf :=
    if durSeconds c.retryWaitMax = 0 then { c with retryWaitMax := 60 * nsPerSec } else c
  let wait : ℚ := durSeconds c.retryWaitMin * 2 ^ attempt
  let wait : ℚ := if wait > durSeconds c.retryWaitMax then durSeconds c.retryWaitMax else wait
  (ratTrunc (wait * (nsPerSec : ℚ)), c)

/-- `waitRateLimit` (github.go) without the final `time.Sleep`: the
duration that is slept, plus the client state after the call (the
else-branch calls the mutating `calculateBackoff` method).
`time.Until(time.Unix(reset, 0))` is `reset*1e9 - now` with `now` the
current epoch time in nanoseconds.  Note the fallback to one second
applies only when the difference is strictly negative. -/
def waitRateLimit (c : ClientConf) (reset : Int) (attempt : Nat) (now : Int) :
    Duration × ClientConf :=
  if reset ≠ 0 then
    let waitTime : Duration := reset * nsPerSec - now
    (if waitTime < 0 then nsPerSec else waitTime, c)
  else
    clientCalculateBackoff c attempt

/-- `calcBackoff` (part_015): when the reset epoch is non-zero it returns
`time.Until(reset)` with no clamping at all; otherwise
`min(minD * 2^attempt, maxD)` computed in float64 (modelled over `ℚ`). -/
def calcBackoff (minD maxD : Duration) (attempt : Nat) (reset : Int) (now : Int) : Duration :=
  if reset ≠ 0 then
    reset * nsPerSec - now
  else
    let backoff : ℚ := (minD : ℚ) * 2 ^ attempt
    let wait : Duration := ratTrunc backoff
    min wait maxD

/-- What `c.client.Do(req)` yields on one attempt: a transport-level
failure (connection refused, DNS failure, ...) with a nil response, or a
received response. -/
inductive Outcome where
  | transport (e : Nat)
  | ok (r : RespV3)

/-- The error component of `Do`'s result, one constructor per `return`
shape of the source: the context's error, the raw transport error, a
`newResponse` failure, the structured `APIError` (carrying the status code
it is built from), a rate-limit handler's error, the generic
`fmt.Errorf("max retry attempts %d exceeded", maxAtm)` value, and a JSON
decode failure.  `nilPanic` models the nil-pointer dereference the
github.go variant commits by calling `getRateLimit(res)` before checking
the transport error. -/
inductive DoErr where
  | ctxCanceled
  | transport (e : Nat)
  | build (e : Nat)
  | api (status : Nat)
  | handler (e : Nat)
  | maxExceeded (maxAtm : Nat)
  | decode
  | nilPanic
deriving Repr, DecidableEq

/-- Result of one `Do` call (part_015 variant): how many times
`c.client.Do` ran, the envelope and error returned, and the list of
backoff waits actually performed before terminating. -/
structure DoResultV3 where
  sends : Nat
  resp : Option RespV3
  err : Option DoErr
  waits : List Duration
deriving Repr, DecidableEq

/-- The three cases of the backoff `select` in part_015's `Do`:
`<-ctx.Done()`, `<-time.After(waitTime)`, and `default`. -/
inductive SelectBranch where
  | ctxDone
  | timer
  | dflt
deriving Repr, DecidableEq

/-- Go semantics of that `select`: a communication case is taken only when
its channel is ready at the instant the select executes; otherwise the
`default` case runs without blocking.  `ctx.Done()` is ready exactly when
the context is already cancelled, and the channel created by
`time.After(waitTime)` only becomes ready `waitTime` later, so it is never
ready at that instant. -/
def selectWaitBranch (canceled : Bool) : SelectBranch :=
  if canceled then SelectBranch.ctxDone else SelectBranch.dflt

/-- Per-call inputs of `Do` that are not client configuration: whether a
decode target `v` was passed, and the retry-relevant configuration read by
the loop. -/
structure ConfV3 where
  retryMax : Int
  rateLimitRetry : Bool
  hasHandler : Bool
  hasTarget : Bool
  retryWaitMin : Duration
  retryWaitMax : Duration
deriving Repr, DecidableEq

/-- The code after part_015's retry loop: status `>= 400` yields the
structured API error, otherwise the body is decoded into the target when
one was supplied. -/
def afterLoopV3 (c : ConfV3) (r : RespV3) (sends : Nat) (waits : List Duration) : DoResultV3 :=
  if r.StatusCode ≥ 400 then ⟨sends, some r, some (DoErr.api r.StatusCode), waits⟩
  else if c.hasTarget && !r.decodeOk then ⟨sends, some r, some DoErr.decode, waits⟩
  else ⟨sends, some r, none, waits⟩

/-- The retry loop of part_015's `Do`.  `world` is what the network
returns on each attempt; `canceled` answers the k-th cancellation poll
(the top-of-loop check of attempt `a` is poll `2*a`, the wait-select check
is poll `2*a+1`); `now` is the clock at attempt `a`'s backoff computation.
`fuel` is the number of loop iterations still permitted; the executor
starts it at `maxAtm`, and the `attempt >= maxAtm-1` return makes the
zero-fuel branch unreachable from there. -/
def doLoopV3 (c : ConfV3) (world : Nat → Outcome) (canceled : Nat → Bool)
    (now : Nat → Int) (maxAtm : Nat) :
    Nat → Nat → Nat → List Duration → DoResultV3
  | 0, _, sends, waits => ⟨sends, none, none, waits⟩
  | fuel + 1, attempt, sends, waits =>
    if canceled (2 * attempt) then ⟨sends, none, some DoErr.ctxCanceled, waits⟩
    else
      match world attempt with
      | Outcome.transport e => ⟨sends + 1, none, some (DoErr.transport e), waits⟩
      | Outcome.ok r =>
        match r.buildErr with
        | some e => ⟨sends + 1, some r, some (DoErr.build e), waits⟩
        | none =>
          if !checkRetry r then afterLoopV3 c r (sends + 1) waits
          else if !c.rateLimitRetry then
            ⟨sends + 1, some r, some (DoErr.api r.StatusCode), waits⟩
          else
            match (if c.hasHandler then r.handlerErr else none) with
            | some e => ⟨sends + 1, some r, some (DoErr.handler e), waits⟩
            | none =>
              if attempt ≥ maxAtm - 1 then
                ⟨sends + 1, some r, some (DoErr.maxExceeded maxAtm), waits⟩
              else
                let waitTime : Duration :=
                  calcBackoff c.retryWaitMin c.retryWaitMax attempt r.Reset (now attempt)
                match selectWaitBranch (canceled (2 * attempt + 1)) with
                | SelectBranch.ctxDone => ⟨sends + 1, some r, some DoErr.ctxCanceled, waits⟩
                | SelectBranch.timer =>
                  doLoopV3 c world canceled now maxAtm fuel (attempt + 1) (sends + 1)
                    (waits ++ [waitTime])
                | SelectBranch.dflt =>
                  doLoopV3 c world canceled now maxAtm fuel (attempt + 1) (sends + 1) waits

/-- `Do` (part_015 variant): runs the retry loop with
`maxAtm = max(c.retryMax, 1)` attempts. -/
def goDo (c : ConfV3) (world : Nat → Outcome) (canceled : Nat → Bool)
    (now : Nat → Int) : DoResultV3 :=
  let maxAtm : Nat := (max c.retryMax 1).toNat
  doLoopV3 c world canceled now maxAtm maxAtm 0 0 []

/-- Go `strings.Split` for the single-character separators used by the
Link-header parser (`","`, `";"`, `"&"`). -/
def goSplit (sep : Char) (s : List Char) : List (List Char) :=
  s.splitOnP (fun c => c == sep)

/-- Go `strings.Trim(s, cutset)`: remove from both ends every leading and
trailing character contained in `cutset`. -/
def goTrim (s cutset : List Char) : List Char :=
  ((s.dropWhile fun c => cutset.contains c).reverse.dropWhile
    fun c => cutset.contains c).reverse

def linkPrev : List Char := "prev".data

def linkNext : List Char := "next".data

def linkFirst : List Char := "first".data

def linkLast : List Char := "last".data

/-- The part of a parsed `net/url.URL` that the pagination code reads. -/
structure GoURL where
  rawQuery : List Char

/-- `net/url.Parse` restricted to the URL shapes reaching the pagination
code: `Parse` fails exactly on a URL containing an ASCII control
character (which net/url rejects); otherwise the fragment (everything
from the first `#`) is cut off and the raw query is the text after the
first `?` of the remainder.  The inputs considered contain no
percent-escapes or `+`, so query decoding is the identity. -/
def goUrlParse (s : List Char) : Except Unit GoURL :=
  if s.any (fun c => c.toNat < 32 || c.toNat == 127) then Except.error ()
  else
    let pre : List Char := s.takeWhile fun c => !(c == '#')
    let q : List Char := (pre.dropWhile fun c => !(c == '?')).drop 1
    Except.ok ⟨q⟩

/-- `url.Values.Get(key)` after `ParseQuery` of the raw query: split on
`&`, each nonempty segment binds the text before its first `=` to the
text after it, and `Get` returns the first value bound to `key` (the
empty string when absent). -/
def queryGet (raw key : List Char) : List Char :=
  ((goSplit '&' raw).filterMap fun seg =>
    if seg = [] then none
    else
      let k : List Char := seg.takeWhile fun c => !(c == '=')
      let v : List Char := (seg.dropWhile fun c => !(c == '=')).drop 1
      if k = key then some v else none).headD []

/-- The raw `http.Response` data the github.go executor consumes, plus the
environment's answers for this response: whether JSON-decoding its body
succeeds and what a configured rate-limit handler returns for it. -/
structure HttpResp where
  StatusCode : Nat
  headers : Headers
  decodeOk : Bool := true
  handlerErr : Option Nat := none

/-- The `Response` envelope (github.go): embedded raw response, embedded
`RateLimit`, and the four pagination fields defaulting to zero. -/
structure ResponseE where
  http : Option HttpResp
  rl : RateLimit
  PreviousPage : Int := 0
  NextPage : Int := 0
  FirstPage : Int := 0
  LastPage : Int := 0

/-- The loop body of `parseLinkHeader` (github.go) over the already
comma-split entries, threading the envelope being filled in: an entry
that does not split at `;` into exactly two parts is skipped; the URL
part is trimmed of `< >`, the rel part trimmed of the characters of
`" rel="` and stripped of double quotes (`strings.ReplaceAll` with the
empty replacement); a URL-parse or `Atoi` failure stops the walk and
reports the error together with the envelope as mutated so far; a page of
exactly 0 and an unrecognized rel leave the envelope unchanged. -/
def parseLinkEntries (res : ResponseE) : List (List Char) → ResponseE × Option Unit
  | [] => (res, none)
  | pair :: rest =>
    let parts : List (List Char) := goSplit ';' pair
    if parts.length ≠ 2 then parseLinkEntries res rest
    else
      let rawUrl : List Char := goTrim (parts.headD []) "< >".data
      let rel : List Char :=
        (goTrim (parts.getD 1 []) " rel=".data).filter fun c => !(c == '\x22')
      match goUrlParse rawUrl with
      | Except.error _ => (res, some ())
      | Except.ok u =>
        match atoi? (queryGet u.rawQuery "page".data) with
        | none => (res, some ())
        | some pageCount =>
          if pageCount = 0 then parseLinkEntries res rest
          else
            let res : ResponseE :=
              if rel = linkPrev then { res with PreviousPage := pageCount }
              else if rel = linkNext then { res with NextPage := pageCount }
              else if rel = linkFirst then { res with FirstPage := pageCount }
              else if rel = linkLast then { res with LastPage := pageCount }
              else res
            parseLinkEntries res rest

/-- `parseLinkHeader` (github.go): an empty header value is the
`invalid Link Header` error; otherwise the header is split on `,` and the
entries are processed in order. -/
def parseLinkHeaderGo (res : ResponseE) (link : List Char) : ResponseE × Option Unit :=
  if link = [] then (res, some ())
  else parseLinkEntries res (goSplit ',' link)

/-- `buildResponse` (github.go): a nil response yields the zero envelope
(`&Response{}`; its nil `*RateLimit` is modelled by the zero value);
otherwise the envelope wraps the response and the given `RateLimit`, the
Link header is parsed when present, and a parse error is swallowed — both
branches return the envelope as filled so far. -/
def buildResponse (hr : Option HttpResp) (rl : RateLimit) : ResponseE :=
  match hr with
  | none => { http := none, rl := {} }
  | some h =>
    let res : ResponseE := { http := some h, rl := rl }
    if h.headers "Link" ≠ [] then (parseLinkHeaderGo res (h.headers "Link")).1
    else res

/-- One attempt's network outcome for the github.go executor. -/
inductive OutcomeV1 where
  | transport (e : Nat)
  | ok (h : HttpResp)

/-- Result of one github.go `Do` call: send count, returned envelope and
error, and the durations passed to `time.Sleep`. -/
structure DoResultV1 where
  sends : Nat
  resp : Option ResponseE
  err : Option DoErr
  sleeps : List Duration

/-- The code after github.go's retry loop: build the envelope, turn status
`>= 400` into the structured API error, otherwise decode the body when a
target was supplied. -/
def afterLoopV1 (hasTarget : Bool) (c : ClientConf) (h : HttpResp) (rl : RateLimit)
    (sends : Nat) (sleeps : List Duration) : DoResultV1 × ClientConf :=
  let response : ResponseE := buildResponse (some h) rl
  if h.StatusCode ≥ 400 then
    (⟨sends, some response, some (DoErr.api h.StatusCode), sleeps⟩, c)
  else if hasTarget && !h.decodeOk then
    (⟨sends, some response, some DoErr.decode, sleeps⟩, c)
  else (⟨sends, some response, none, sleeps⟩, c)

/-- The retry loop of github.go's `Do`, threading the client because
`waitRateLimit`'s backoff method may write default waits back into it.
On a transport error this variant calls `getRateLimit(res)` with a nil
response before checking the error, a nil-pointer dereference
(`DoErr.nilPanic`).  A 403/429 response with zero remaining quota is the
only retry trigger; when the handler is absent the loop sleeps for
`waitRateLimit`'s duration (recorded in `sleeps` — an uninterruptible
`time.Sleep`); the zero-fuel case is the loop running out of iterations,
after which the last response is wrapped and judged. -/
def doLoopV1 (hasTarget : Bool) (world : Nat → OutcomeV1) (canceled : Nat → Bool)
    (now : Nat → Int) :
    Nat → Nat → Nat → ClientConf → List Duration → Option (HttpResp × RateLimit) →
    DoResultV1 × ClientConf
  | 0, _, sends, c, sleeps, lastRes =>
    match lastRes with
    | some (h, rl) => afterLoopV1 hasTarget c h rl sends sleeps
    | none => (⟨sends, none, none, sleeps⟩, c)
  | fuel + 1, attempt, sends, c, sleeps, _ =>
    if canceled attempt then (⟨sends, none, some DoErr.ctxCanceled, sleeps⟩, c)
    else
      match world attempt with
      | OutcomeV1.transport _ => (⟨sends + 1, none, some DoErr.nilPanic, sleeps⟩, c)
      | OutcomeV1.ok h =>
        let rateLim : RateLimit := getRateLimit h.headers
        if (h.StatusCode == 403 || h.StatusCode == 429) && rateLim.Remaining == 0 then
          if !c.rateLimitRetry then
            (⟨sends + 1, some (buildResponse (some h) rateLim),
              some (DoErr.api h.StatusCode), sleeps⟩, c)
          else if c.hasHandler then
            match h.handlerErr with
            | some e =>
              (⟨sends + 1, some (buildResponse (some h) rateLim),
                some (DoErr.handler e), sleeps⟩, c)
            | none =>
              doLoopV1 hasTarget world canceled now fuel (attempt + 1) (sends + 1) c
                sleeps (some (h, rateLim))
          else
            let wr : Duration × ClientConf :=
              waitRateLimit c rateLim.Reset attempt (now attempt)
            doLoopV1 hasTarget world canceled now fuel (attempt + 1) (sends + 1) wr.2
              (sleeps ++ [wr.1]) (some (h, rateLim))
        else afterLoopV1 hasTarget c h rateLim (sends + 1) sleeps

/-- `Do` (github.go variant): runs the loop with
`maxAtm = max(c.retryMax, 1)` attempts, returning the result and the
client's configuration after the call. -/
def goDoV1 (c : ClientConf) (hasTarget : Bool) (world : Nat → OutcomeV1)
    (canceled : Nat → Bool) (now : Nat → Int) : DoResultV1 × ClientConf :=
  let maxAtm : Nat := (max c.retryMax 1).toNat
  doLoopV1 hasTarget world canceled now maxAtm 0 0 c [] none

/-! ### Helper lemmas -/

lemma nsPerSec_pos : (0 : Int) < nsPerSec := by decide

lemma durSeconds_eq_zero_iff (d : Duration) : durSeconds d = 0 ↔ d = 0 := by
  unfold durSeconds nsPerSec
  rw [div_eq_zero_iff]
  norm_num

lemma ratTrunc_intCast (m : Int) : ratTrunc (m : ℚ) = m := by
  unfold ratTrunc
  split
  · rw [← Int.cast_neg, Int.floor_intCast, neg_neg]
  · rw [Int.floor_intCast]

lemma scaledCap_eq (n : Nat) (m M : Int) :
    ratTrunc ((if durSeconds m * 2 ^ n > durSeconds M then durSeconds M
        else durSeconds m * 2 ^ n) * (nsPerSec : ℚ)) = min (m * 2 ^ n) M := by
  have hq : (0 : ℚ) < (nsPerSec : ℚ) := by
    exact_mod_cast nsPerSec_pos
  have hcast : durSeconds m * 2 ^ n * (nsPerSec : ℚ) = ((m * 2 ^ n : Int) : ℚ) := by
    unfold durSeconds
    push_cast
    field_simp
  have h1 : durSeconds M * (nsPerSec : ℚ) = ((M : Int) : ℚ) := by
    unfold durSeconds
    field_simp
  by_cases hgt : durSeconds m * 2 ^ n > durSeconds M
  · rw [if_pos hgt, h1, ratTrunc_intCast]
    have h2 : (M : ℚ) < ((m * 2 ^ n : Int) : ℚ) := by
      have := mul_lt_mul_of_pos_right hgt hq
      rw [hcast, h1] at this
      exact this
    have h3 : M ≤ m * 2 ^ n := le_of_lt (by exact_mod_cast h2)
    exact (min_eq_right h3).symm
  · rw [if_neg hgt, hcast, ratTrunc_intCast]
    have h2 : durSeconds m * 2 ^ n * (nsPerSec : ℚ) ≤ durSeconds M * (nsPerSec : ℚ) :=
      mul_le_mul_of_nonneg_right (not_lt.mp hgt) (le_of_lt hq)
    rw [hcast, h1] at h2
    have h3 : m * 2 ^ n ≤ M := by exact_mod_cast h2
    exact (min_eq_left h3).symm

lemma calculateBackoff_eq_min (n : Nat) (wmin wmax : Duration) :
    calculateBackoff n wmin wmax =
      min ((if wmin = 0 then nsPerSec else wmin) * 2 ^ n)
        (if wmax = 0 then 60 * nsPerSec else wmax) := by
  unfold calculateBackoff
  simp only [durSeconds_eq_zero_iff]
  exact scaledCap_eq n _ _

lemma clientCalculateBackoff_eq (c : ClientConf) (attempt : Nat) :
    clientCalculateBackoff c attempt =
      (min ((if c.retryWaitMin = 0 then 5 * nsPerSec else c.retryWaitMin) * 2 ^ attempt)
          (if c.retryWaitMax = 0 then 60 * nsPerSec else c.retryWaitMax),
        { c with
          retryWaitMin := if c.retryWaitMin = 0 then 5 * nsPerSec else c.retryWaitMin,
          retryWaitMax := if c.retryWaitMax = 0 then 60 * nsPerSec else c.retryWaitMax }) := by
  unfold clientCalculateBackoff
  simp only [durSeconds_eq_zero_iff]
  by_cases h1 : c.retryWaitMin = 0 <;> by_cases h2 : c.retryWaitMax = 0 <;>
    simp only [h1, h2, if_true, if_false, ite_true, ite_false] <;>
    rw [Prod.mk.injEq] <;>
    exact ⟨scaledCap_eq attempt _ _, rfl⟩

lemma clientCalculateBackoff_preserves (c : ClientConf) (attempt : Nat)
    (hmin : c.retryWaitMin ≠ 0) (hmax : c.retryWaitMax ≠ 0) :
    (clientCalculateBackoff c attempt).2 = c := by
  rw [clientCalculateBackoff_eq]
  simp only [if_neg hmin, if_neg hmax]

lemma waitRateLimit_preserves (c : ClientConf) (reset : Int) (attempt : Nat) (now : Int)
    (hmin : c.retryWaitMin ≠ 0) (hmax : c.retryWaitMax ≠ 0) :
    (waitRateLimit c reset attempt now).2 = c := by
  unfold waitRateLimit
  split
  · rfl
  · exact clientCalculateBackoff_preserves c attempt hmin hmax

/-! ### C1 — retry classification -/

/-- C1: for every response seen by the retry loop, `checkRetry` answers
`true` exactly when the status is 403 or 429 with `Remaining = 0`, or the
status is 500, 502 or 503; consequently 403/429 with remaining quota, and
any other status (200, 404, ...), are not retried. -/
theorem checkRetry_decision_table (resp : RespV3) :
    checkRetry resp = true ↔
      (((resp.StatusCode = 403 ∨ resp.StatusCode = 429) ∧ resp.Remaining = 0) ∨
        resp.StatusCode = 500 ∨ resp.StatusCode = 502 ∨ resp.StatusCode = 503) := by
  simp only [checkRetry, List.contains_cons, List.contains_nil, Bool.or_false,
    Bool.and_eq_true, Bool.or_eq_true, beq_iff_eq]
  split
  · rename_i hcond
    simp only [true_iff]
    exact Or.inl ⟨hcond.1, hcond.2⟩
  · rename_i hcond
    rw [not_and_or] at hcond
    simp only [List.contains_cons, List.contains_nil, Bool.or_false, Bool.or_eq_true,
      beq_iff_eq]
    constructor
    · intro h
      exact Or.inr h
    · intro h
      rcases h with h | h
      · rcases hcond with hc | hc
        · exact absurd h.1 hc
        · exact absurd h.2 hc
      · exact h

/-! ### C4 — exponential backoff formula -/

/-- C4: with a zero configured min/max replaced by the defaults,
`calculateBackoff` computes `min(waitMin * 2^attempt, waitMax)`; for
min = 1s and max = 30s it is non-decreasing in the attempt index, capped
at 30s, and takes the values 1s, 2s and 30s at attempts 0, 1 and 5. -/
theorem calculateBackoff_formula_monotone_cap :
    (∀ (n : Nat) (wmin wmax : Duration),
        calculateBackoff n wmin wmax =
          min ((if wmin = 0 then nsPerSec else wmin) * 2 ^ n)
            (if wmax = 0 then 60 * nsPerSec else wmax)) ∧
    (∀ n : Nat, calculateBackoff n nsPerSec (30 * nsPerSec) ≤
        calculateBackoff (n + 1) nsPerSec (30 * nsPerSec)) ∧
    (∀ n : Nat, calculateBackoff n nsPerSec (30 * nsPerSec) ≤ 30 * nsPerSec) ∧
    calculateBackoff 0 nsPerSec (30 * nsPerSec) = nsPerSec ∧
    calculateBackoff 1 nsPerSec (30 * nsPerSec) = 2 * nsPerSec ∧
    calculateBackoff 5 nsPerSec (30 * nsPerSec) = 30 * nsPerSec := by
  have hmin : (nsPerSec : Duration) ≠ 0 := by decide
  have hmax : (30 * nsPerSec : Duration) ≠ 0 := by decide
  refine ⟨calculateBackoff_eq_min, ?_, ?_,
    by rw [calculateBackoff_eq_min, if_neg hmin, if_neg hmax]; decide,
    by rw [calculateBackoff_eq_min, if_neg hmin, if_neg hmax]; decide,
    by rw [calculateBackoff_eq_min, if_neg hmin, if_neg hmax]; decide⟩
  · intro n
    rw [calculateBackoff_eq_min, calculateBackoff_eq_min, if_neg hmin, if_neg hmax]
    have h2 : nsPerSec * 2 ^ n ≤ nsPerSec * 2 ^ (n + 1) := by
      have := pow_le_pow_right₀ (by norm_num : (1 : Int) ≤ 2) (Nat.le_succ n)
      exact mul_le_mul_of_nonneg_left this (by decide)
    exact min_le_min h2 le_rfl
  · intro n
    rw [calculateBackoff_eq_min, if_neg hmin, if_neg hmax]
    exact min_le_right _ _

/-! ### C3 — reset-based wait -/

/-- C3 counterexample: when the reset epoch equals the current time
exactly (difference zero), `waitRateLimit` keeps the zero wait instead of
falling back to the one-second minimum — the computed wait CAN be zero. -/
theorem waitRateLimit_zero_gap_counterexample :
    (waitRateLimit
        { retryMax := 5, retryWaitMin := nsPerSec, retryWaitMax := 30 * nsPerSec,
          rateLimitRetry := true, hasHandler := false } 1 0 nsPerSec).1 = 0 ∧
      (waitRateLimit
        { retryMax := 5, retryWaitMin := nsPerSec, retryWaitMax := 30 * nsPerSec,
          rateLimitRetry := true, hasHandler := false } 1 0 nsPerSec).1 ≠ nsPerSec := by
  constructor
  · decide
  · decide

/-- C3 (amended): with a non-zero reset epoch the wait is
`reset − now`, the attempt-based formula is ignored (and the client is
untouched); the one-second fallback applies only to a strictly negative
difference, so the wait is never negative but is zero exactly when the
reset time equals `now`. -/
theorem waitRateLimit_reset_precedence (c : ClientConf) (reset now : Int) (attempt : Nat)
    (h : reset ≠ 0) :
    (waitRateLimit c reset attempt now).1 =
      (if reset * nsPerSec - now < 0 then nsPerSec else reset * nsPerSec - now) ∧
    0 ≤ (waitRateLimit c reset attempt now).1 ∧
    ((waitRateLimit c reset attempt now).1 = 0 ↔ reset * nsPerSec - now = 0) ∧
    (waitRateLimit c reset attempt now).2 = c := by
  unfold waitRateLimit
  rw [if_pos h]
  refine ⟨rfl, ?_, ?_, rfl⟩
  · dsimp only
    split
    · exact le_of_lt nsPerSec_pos
    · rename_i hge
      exact not_lt.mp hge
  · dsimp only
    split
    · rename_i hlt
      exact iff_of_false (by decide) (ne_of_lt hlt)
    · exact Iff.rfl

/-- Witness for `waitRateLimit_reset_precedence` at reset = 2, now = 0. -/
theorem waitRateLimit_reset_precedence_witness :
    (2 : Int) ≠ 0 ∧
      0 ≤ (waitRateLimit
        { retryMax := 5, retryWaitMin := nsPerSec, retryWaitMax := 30 * nsPerSec,
          rateLimitRetry := true, hasHandler := false } 2 0 0).1 :=
  ⟨by decide,
    (waitRateLimit_reset_precedence
      { retryMax := 5, retryWaitMin := nsPerSec, retryWaitMax := 30 * nsPerSec,
        rateLimitRetry := true, hasHandler := false } 2 0 0 (by decide)).2.1⟩

/-! ### C8 — configuration immutability -/

/-- A client configured with a zero minimum retry wait, as
`NewClient(WithRetryWaitMin(0))` produces. -/
def confC8 : ClientConf :=
  { retryMax := 3, retryWaitMin := 0, retryWaitMax := 30 * nsPerSec,
    rateLimitRetry := true, hasHandler := false }

/-- A server answering the first attempt with 429 (no rate-limit headers,
so remaining = 0 and reset = 0) and the second with 200. -/
def worldC8 : Nat → OutcomeV1 := fun i =>
  if i = 0 then OutcomeV1.ok { StatusCode := 429, headers := fun _ => [] }
  else OutcomeV1.ok { StatusCode := 200, headers := fun _ => [] }

/-- C8 counterexample: a `Do` invocation that reaches the backoff
computation on a client whose `retryWaitMin` is zero leaves the client
with `retryWaitMin = 5s` — a configuration field was mutated by the call
(`calculateBackoff` writes the default back into the client). -/
theorem do_mutates_config_counterexample :
    ((goDoV1 confC8 false worldC8 (fun _ => false) (fun _ => 0)).2).retryWaitMin ≠
      confC8.retryWaitMin := by
  have hrun :
      ((goDoV1 confC8 false worldC8 (fun _ => false) (fun _ => 0)).2).retryWaitMin =
        5 * nsPerSec := by
    show (doLoopV1 false worldC8 (fun _ => false) (fun _ => 0) 3 0 0 confC8 []
        none).2.retryWaitMin = 5 * nsPerSec
    rw [show (3 : Nat) = 2 + 1 from rfl]
    simp only [doLoopV1]
    simp [worldC8, confC8, getRateLimit, rateLimitHeader, rateRemainigHeader,
      rateResetHeader, rateUsedHeader, afterLoopV1, waitRateLimit,
      clientCalculateBackoff_eq, nsPerSec]
  rw [hrun]
  decide

lemma doLoopV1_client_preserved (hasTarget : Bool) (world : Nat → OutcomeV1)
    (canceled : Nat → Bool) (now : Nat → Int) (c : ClientConf)
    (hmin : c.retryWaitMin ≠ 0) (hmax : c.retryWaitMax ≠ 0) :
    ∀ (fuel attempt sends : Nat) (sleeps : List Duration)
      (lastRes : Option (HttpResp × RateLimit)),
      (doLoopV1 hasTarget world canceled now fuel attempt sends c sleeps lastRes).2 = c := by
  intro fuel
  induction fuel with
  | zero =>
    intro attempt sends sleeps lastRes
    simp only [doLoopV1]
    match lastRes with
    | some (h, rl) =>
      simp only [afterLoopV1]
      split
      · rfl
      · split
        · rfl
        · rfl
    | none => rfl
  | succ fuel ih =>
    intro attempt sends sleeps lastRes
    simp only [doLoopV1]
    split
    · rfl
    · match hw : world attempt with
      | OutcomeV1.transport e => rfl
      | OutcomeV1.ok h =>
        simp only []
        split
        · split
          · rfl
          · split
            · match h.handlerErr with
              | some e => rfl
              | none => exact ih _ _ _ _
            · rw [waitRateLimit_preserves c _ _ _ hmin hmax]
              exact ih _ _ _ _
        · simp only [afterLoopV1]
          split
          · rfl
          · split
            · rfl
            · rfl

/-- C8 (amended): a `Do` invocation leaves every configuration field of
the client unchanged PROVIDED both configured retry waits are non-zero;
the only mutation in the executor is `calculateBackoff` writing the
defaults (5s / 60s) over a zero `retryWaitMin` / `retryWaitMax`. -/
theorem do_preserves_config_nonzero_waits (c : ClientConf) (hasTarget : Bool)
    (world : Nat → OutcomeV1) (canceled : Nat → Bool) (now : Nat → Int)
    (hmin : c.retryWaitMin ≠ 0) (hmax : c.retryWaitMax ≠ 0) :
    (goDoV1 c hasTarget world canceled now).2 = c := by
  unfold goDoV1
  exact doLoopV1_client_preserved hasTarget world canceled now c hmin hmax _ _ _ _ _

/-- Witness for `do_preserves_config_nonzero_waits` on a client with
1s/30s waits against the two-response server. -/
theorem do_preserves_config_nonzero_waits_witness :
    ({ retryMax := 3, retryWaitMin := nsPerSec, retryWaitMax := 30 * nsPerSec,
        rateLimitRetry := true, hasHandler := false } : ClientConf).retryWaitMin ≠ 0 ∧
      (goDoV1
        { retryMax := 3, retryWaitMin := nsPerSec, retryWaitMax := 30 * nsPerSec,
          rateLimitRetry := true, hasHandler := false } false worldC8
        (fun _ => false) (fun _ => 0)).2 =
        { retryMax := 3, retryWaitMin := nsPerSec, retryWaitMax := 30 * nsPerSec,
          rateLimitRetry := true, hasHandler := false } :=
  ⟨by decide,
    do_preserves_config_nonzero_waits
      { retryMax := 3, retryWaitMin := nsPerSec, retryWaitMax := 30 * nsPerSec,
        rateLimitRetry := true, hasHandler := false } false worldC8
      (fun _ => false) (fun _ => 0) (by decide) (by decide)⟩

/-! ### C5 — header extraction totality -/

lemma atoi?_nil : atoi? [] = none := rfl

lemma getRateLimit_Limit (h : Headers) :
    (getRateLimit h).Limit = (atoi? (h rateLimitHeader)).getD 0 := by
  unfold getRateLimit
  repeat' split
  all_goals simp_all only [not_not, atoi?_nil, Option.getD_some, Option.getD_none]

lemma getRateLimit_Remaining (h : Headers) :
    (getRateLimit h).Remaining = (atoi? (h rateRemainigHeader)).getD 0 := by
  unfold getRateLimit
  repeat' split
  all_goals simp_all only [not_not, atoi?_nil, Option.getD_some, Option.getD_none]

lemma getRateLimit_Reset (h : Headers) :
    (getRateLimit h).Reset = (atoi? (h rateResetHeader)).getD 0 := by
  unfold getRateLimit
  repeat' split
  all_goals simp_all only [not_not, atoi?_nil, Option.getD_some, Option.getD_none]

lemma getRateLimit_Used (h : Headers) :
    (getRateLimit h).Used = (atoi? (h rateUsedHeader)).getD 0 := by
  unfold getRateLimit
  repeat' split
  all_goals simp_all only [not_not, atoi?_nil, Option.getD_some, Option.getD_none]

/-- C5: `getRateLimit` is a total function of the header set (it returns a
`RateLimit` and can signal no error); each field is read independently
from its named header (it depends on no other header), a missing (empty)
or non-numeric value leaves the field at zero, and a numeric value is
stored as parsed — `(atoi? v).getD 0` is exactly "the parsed integer, or
the zero value when the header is missing or not a number". -/
theorem getRateLimit_total_fieldwise :
    (∀ h h' : Headers, h rateLimitHeader = h' rateLimitHeader →
      (getRateLimit h).Limit = (getRateLimit h').Limit) ∧
    (∀ h h' : Headers, h rateRemainigHeader = h' rateRemainigHeader →
      (getRateLimit h).Remaining = (getRateLimit h').Remaining) ∧
    (∀ h h' : Headers, h rateResetHeader = h' rateResetHeader →
      (getRateLimit h).Reset = (getRateLimit h').Reset) ∧
    (∀ h h' : Headers, h rateUsedHeader = h' rateUsedHeader →
      (getRateLimit h).Used = (getRateLimit h').Used) ∧
    (∀ h : Headers, (getRateLimit h).Limit = (atoi? (h rateLimitHeader)).getD 0) ∧
    (∀ h : Headers, (getRateLimit h).Remaining = (atoi? (h rateRemainigHeader)).getD 0) ∧
    (∀ h : Headers, (getRateLimit h).Reset = (atoi? (h rateResetHeader)).getD 0) ∧
    (∀ h : Headers, (getRateLimit h).Used = (atoi? (h rateUsedHeader)).getD 0) ∧
    atoi? [] = none := by
  refine ⟨?_, ?_, ?_, ?_, getRateLimit_Limit, getRateLimit_Remaining,
    getRateLimit_Reset, getRateLimit_Used, by decide⟩
  · intro h h' he
    rw [getRateLimit_Limit, getRateLimit_Limit, he]
  · intro h h' he
    rw [getRateLimit_Remaining, getRateLimit_Remaining, he]
  · intro h h' he
    rw [getRateLimit_Reset, getRateLimit_Reset, he]
  · intro h h' he
    rw [getRateLimit_Used, getRateLimit_Used, he]

/-- A header set with a malformed limit and a numeric remaining value. -/
def hdrA : Headers := fun k =>
  if k = rateRemainigHeader then "42".data
  else if k = rateLimitHeader then "abc".data
  else []

/-- Like `hdrA` on the limit header, different elsewhere. -/
def hdrB : Headers := fun k =>
  if k = rateLimitHeader then "abc".data else "9".data

/-- Witness for `getRateLimit_total_fieldwise`: the limit field only
depends on the limit header, and the malformed/numeric values default and
parse as stated. -/
theorem getRateLimit_total_fieldwise_witness :
    hdrA rateLimitHeader = hdrB rateLimitHeader ∧
      (getRateLimit hdrA).Limit = (getRateLimit hdrB).Limit ∧
      (getRateLimit hdrA).Limit = (atoi? (hdrA rateLimitHeader)).getD 0 ∧
      (getRateLimit hdrA).Remaining = (atoi? (hdrA rateRemainigHeader)).getD 0 :=
  ⟨by decide,
    getRateLimit_total_fieldwise.1 hdrA hdrB (by decide),
    getRateLimit_total_fieldwise.2.2.2.2.1 hdrA,
    getRateLimit_total_fieldwise.2.2.2.2.2.1 hdrA⟩

/-! ### The part_015 retry loop: attempt accounting -/

lemma afterLoopV3_sends (c : ConfV3) (r : RespV3) (s : Nat) (w : List Duration) :
    (afterLoopV3 c r s w).sends = s := by
  unfold afterLoopV3
  repeat' split
  all_goals rfl

lemma afterLoopV3_waits (c : ConfV3) (r : RespV3) (s : Nat) (w : List Duration) :
    (afterLoopV3 c r s w).waits = w := by
  unfold afterLoopV3
  repeat' split
  all_goals rfl

lemma selectWaitBranch_ne_timer (b : Bool) : selectWaitBranch b ≠ SelectBranch.timer := by
  unfold selectWaitBranch
  split <;> simp

lemma doLoopV3_sends_le (c : ConfV3) (world : Nat → Outcome) (canceled : Nat → Bool)
    (now : Nat → Int) (maxAtm : Nat) :
    ∀ (fuel attempt sends : Nat) (waits : List Duration),
      (doLoopV3 c world canceled now maxAtm fuel attempt sends waits).sends ≤ sends + fuel := by
  intro fuel
  induction fuel with
  | zero =>
    intro attempt sends waits
    simp only [doLoopV3]
    omega
  | succ fuel ih =>
    intro attempt sends waits
    simp only [doLoopV3]
    repeat' split
    all_goals first
      | (dsimp only; omega)
      | (rw [afterLoopV3_sends]; omega)
      | (exact le_trans (ih _ _ _) (by omega))

lemma doLoopV3_waits_fixed (c : ConfV3) (world : Nat → Outcome) (canceled : Nat → Bool)
    (now : Nat → Int) (maxAtm : Nat) :
    ∀ (fuel attempt sends : Nat) (waits : List Duration),
      (doLoopV3 c world canceled now maxAtm fuel attempt sends waits).waits = waits := by
  intro fuel
  induction fuel with
  | zero =>
    intro attempt sends waits
    rfl
  | succ fuel ih =>
    intro attempt sends waits
    simp only [doLoopV3]
    repeat' split
    all_goals first
      | rfl
      | (rw [afterLoopV3_waits])
      | (rename_i htimer; exact absurd htimer (selectWaitBranch_ne_timer _))
      | (exact ih _ _ _)

lemma doLoopV3_allRetry (c : ConfV3) (r : Nat → RespV3) (world : Nat → Outcome)
    (canceled : Nat → Bool) (now : Nat → Int) (maxAtm : Nat)
    (hw : ∀ i, world i = Outcome.ok (r i)) (hcr : ∀ i, checkRetry (r i) = true)
    (hbe : ∀ i, (r i).buildErr = none) (hrl : c.rateLimitRetry = true)
    (hh : c.hasHandler = false) (hc : ∀ j, canceled j = false) :
    ∀ (fuel attempt sends : Nat) (waits : List Duration), 0 < fuel →
      attempt + fuel = maxAtm →
      doLoopV3 c world canceled now maxAtm fuel attempt sends waits =
        ⟨sends + fuel, some (r (maxAtm - 1)), some (DoErr.maxExceeded maxAtm), waits⟩ := by
  intro fuel
  induction fuel with
  | zero =>
    intro attempt sends waits h0
    omega
  | succ fuel ih =>
    intro attempt sends waits _ hsum
    simp only [doLoopV3, hc, hw, hbe, hcr, hrl, hh, Bool.not_true, Bool.false_eq_true,
      if_false, ite_false]
    by_cases hlast : attempt ≥ maxAtm - 1
    · rw [if_pos hlast]
      have hf0 : fuel = 0 := by omega
      have ha : attempt = maxAtm - 1 := by omega
      subst hf0
      subst ha
      rfl
    · rw [if_neg hlast]
      simp only [hc, selectWaitBranch, Bool.false_eq_true, if_false, ite_false]
      rw [ih (attempt + 1) (sends + 1) waits (by omega) (by omega)]
      congr 1
      omega

lemma doLoopV3_transport (c : ConfV3) (r : Nat → RespV3) (world : Nat → Outcome)
    (canceled : Nat → Bool) (now : Nat → Int) (maxAtm k e : Nat)
    (hw : ∀ i, i < k → world i = Outcome.ok (r i))
    (hcr : ∀ i, i < k → checkRetry (r i) = true)
    (hbe : ∀ i, i < k → (r i).buildErr = none)
    (ht : world k = Outcome.transport e) (hrl : c.rateLimitRetry = true)
    (hh : c.hasHandler = false) (hc : ∀ j, canceled j = false) (hk : k < maxAtm) :
    ∀ (fuel attempt sends : Nat) (waits : List Duration), attempt + fuel = maxAtm →
      attempt ≤ k →
      doLoopV3 c world canceled now maxAtm fuel attempt sends waits =
        ⟨sends + (k - attempt) + 1, none, some (DoErr.transport e), waits⟩ := by
  intro fuel
  induction fuel with
  | zero =>
    intro attempt sends waits hsum hak
    omega
  | succ fuel ih =>
    intro attempt sends waits hsum hak
    by_cases heq : attempt = k
    · subst heq
      simp only [doLoopV3, hc, ht, Bool.false_eq_true, if_false, ite_false]
      congr 1
      omega
    · have hlt : attempt < k := by omega
      simp only [doLoopV3, hc, hw attempt hlt, hbe attempt hlt, hcr attempt hlt, hrl, hh,
        Bool.not_true, Bool.false_eq_true, if_false, ite_false]
      rw [if_neg (by omega)]
      simp only [hc, selectWaitBranch, Bool.false_eq_true, if_false, ite_false]
      rw [ih (attempt + 1) (sends + 1) waits (by omega) (by omega)]
      congr 1
      omega

/-! ### C2 — attempt budget -/

/-- C2: the number of send attempts of a `Do` invocation never exceeds
`max(retryMax, 1)`; when every response is retry-eligible, rate-limit
retry is enabled and no handler is configured, `Do` performs exactly
`max(retryMax, 1)` sends and returns the `max retry attempts exceeded`
error together with the last envelope; and that error is a different
shape from the structured API error. -/
theorem do_attempt_budget :
    (∀ (c : ConfV3) (world : Nat → Outcome) (canceled : Nat → Bool) (now : Nat → Int),
      (goDo c world canceled now).sends ≤ (max c.retryMax 1).toNat) ∧
    (∀ (c : ConfV3) (r : Nat → RespV3) (world : Nat → Outcome) (canceled : Nat → Bool)
      (now : Nat → Int),
      (∀ i, world i = Outcome.ok (r i)) → (∀ i, checkRetry (r i) = true) →
      (∀ i, (r i).buildErr = none) → c.rateLimitRetry = true → c.hasHandler = false →
      (∀ j, canceled j = false) →
      goDo c world canceled now =
        ⟨(max c.retryMax 1).toNat, some (r ((max c.retryMax 1).toNat - 1)),
          some (DoErr.maxExceeded ((max c.retryMax 1).toNat)), []⟩) ∧
    (∀ (m s : Nat), DoErr.maxExceeded m ≠ DoErr.api s) := by
  refine ⟨?_, ?_, ?_⟩
  · intro c world canceled now
    unfold goDo
    exact le_trans (doLoopV3_sends_le c world canceled now _ _ _ _ _) (by omega)
  · intro c r world canceled now hw hcr hbe hrl hh hc
    unfold goDo
    have hpos : 0 < (max c.retryMax 1).toNat := by
      have h1 : (1 : Int) ≤ max c.retryMax 1 := le_max_right _ _
      omega
    rw [doLoopV3_allRetry c r world canceled now _ hw hcr hbe hrl hh hc
      ((max c.retryMax 1).toNat) 0 0 [] hpos (by omega)]
    congr 1
    omega
  · intro m s
    simp

/-- C2's server: always 429 with exhausted quota. -/
def respC2 : RespV3 := { StatusCode := 429, Remaining := 0, Reset := 0 }

/-- C2's client configuration: three attempts, rate-limit retry on. -/
def confC2 : ConfV3 :=
  { retryMax := 3, rateLimitRetry := true, hasHandler := false, hasTarget := false,
    retryWaitMin := nsPerSec, retryWaitMax := 30 * nsPerSec }

/-- Witness for `do_attempt_budget`: retryMax = 3 against an
always-429-remaining-0 server gives exactly 3 sends and the generic
max-attempts error. -/
theorem do_attempt_budget_witness :
    goDo confC2 (fun _ => Outcome.ok respC2) (fun _ => false) (fun _ => 0) =
      ⟨(max confC2.retryMax 1).toNat, some respC2,
        some (DoErr.maxExceeded ((max confC2.retryMax 1).toNat)), []⟩ := by
  have hcr : checkRetry respC2 = true := by decide
  exact do_attempt_budget.2.1 confC2 (fun _ => respC2) (fun _ => Outcome.ok respC2)
    (fun _ => false) (fun _ => 0) (fun _ => rfl) (fun _ => hcr) (fun _ => rfl)
    rfl rfl (fun _ => rfl)

/-! ### C6 — transport errors are not retried -/

/-- C6: if the send itself fails at transport level on some attempt `k`
(after `k` retried attempts), `Do` stops right there: `k + 1` sends, the
raw transport error, and no envelope. -/
theorem do_transport_error_immediate (c : ConfV3) (r : Nat → RespV3)
    (world : Nat → Outcome) (canceled : Nat → Bool) (now : Nat → Int) (k e : Nat)
    (hw : ∀ i, i < k → world i = Outcome.ok (r i))
    (hcr : ∀ i, i < k → checkRetry (r i) = true)
    (hbe : ∀ i, i < k → (r i).buildErr = none)
    (ht : world k = Outcome.transport e) (hrl : c.rateLimitRetry = true)
    (hh : c.hasHandler = false) (hc : ∀ j, canceled j = false)
    (hk : k < (max c.retryMax 1).toNat) :
    goDo c world canceled now = ⟨k + 1, none, some (DoErr.transport e), []⟩ := by
  unfold goDo
  rw [doLoopV3_transport c r world canceled now _ k e hw hcr hbe ht hrl hh hc hk
    ((max c.retryMax 1).toNat) 0 0 [] (by omega) (by omega)]
  congr 1
  omega

/-- C6's server: one 429 then a transport failure. -/
def worldC6 : Nat → Outcome := fun i =>
  if i = 0 then Outcome.ok respC2 else Outcome.transport 7

/-- Witness for `do_transport_error_immediate`: transport failure on the
second attempt terminates `Do` with two sends, the raw error and no
envelope. -/
theorem do_transport_error_immediate_witness :
    goDo confC2 worldC6 (fun _ => false) (fun _ => 0) =
      ⟨2, none, some (DoErr.transport 7), []⟩ := by
  have hcr : checkRetry respC2 = true := by decide
  exact do_transport_error_immediate confC2 (fun _ => respC2) worldC6 (fun _ => false)
    (fun _ => 0) 1 7
    (fun i hi => by
      have h0 : i = 0 := by omega
      subst h0
      rfl)
    (fun i _ => hcr) (fun i _ => rfl) rfl rfl rfl (fun _ => rfl) (by decide)

/-! ### C7 — the backoff wait -/

/-- C7's client: two attempts, rate-limit retry on, 1s/60s waits. -/
def confC7 : ConfV3 :=
  { retryMax := 2, rateLimitRetry := true, hasHandler := false, hasTarget := false,
    retryWaitMin := nsPerSec, retryWaitMax := 60 * nsPerSec }

lemma calcBackoff_zero_reset (minD maxD : Duration) (n : Nat) (now : Int) :
    calcBackoff minD maxD n 0 now = min (minD * 2 ^ n) maxD := by
  unfold calcBackoff
  rw [if_neg (by simp)]
  have h : ((minD : ℚ) * 2 ^ n) = ((minD * 2 ^ n : Int) : ℚ) := by
    push_cast
    ring
  simp only [h, ratTrunc_intCast]

/-- C7: cancellation is honoured at the top of each attempt (a `Do` whose
context is already cancelled returns the context error with zero sends),
but the backoff wait is not: the `select` between `ctx.Done()`,
`time.After(waitTime)` and `default` can never take the timer branch, so
the executor performs NO backoff wait at all — here a run whose computed
backoff would be 1s spins through both attempts without waiting. -/
theorem do_wait_never_blocks :
    (∀ b : Bool, selectWaitBranch b ≠ SelectBranch.timer) ∧
    (∀ (c : ConfV3) (world : Nat → Outcome) (canceled : Nat → Bool) (now : Nat → Int),
      (goDo c world canceled now).waits = []) ∧
    calcBackoff confC7.retryWaitMin confC7.retryWaitMax 0 respC2.Reset 0 = nsPerSec ∧
    goDo confC7 (fun _ => Outcome.ok respC2) (fun _ => true) (fun _ => 0) =
      ⟨0, none, some DoErr.ctxCanceled, []⟩ ∧
    goDo confC7 (fun _ => Outcome.ok respC2) (fun _ => false) (fun _ => 0) =
      ⟨2, some respC2, some (DoErr.maxExceeded 2), []⟩ := by
  refine ⟨selectWaitBranch_ne_timer, ?_, ?_, ?_, ?_⟩
  · intro c world canceled now
    unfold goDo
    exact doLoopV3_waits_fixed c world canceled now _ _ _ _ _
  · rw [show respC2.Reset = 0 from rfl, calcBackoff_zero_reset]
    decide
  · rfl
  · rw [show goDo confC7 (fun _ => Outcome.ok respC2) (fun _ => false) (fun _ => 0) =
        doLoopV3 confC7 (fun _ => Outcome.ok respC2) (fun _ => false) (fun _ => 0) 2 2 0 0 []
      from rfl]
    have hcr : checkRetry respC2 = true := by decide
    rw [doLoopV3_allRetry confC7 (fun _ => respC2) _ _ _ 2 (fun _ => rfl)
      (fun _ => hcr) (fun _ => rfl) rfl rfl (fun _ => rfl) 2 0 0 [] (by omega) rfl]

/-! ### List and digit helpers for the Link-header proofs -/

lemma digit_bounds (c : Char) (h : ('0' ≤ c && c ≤ '9') = true) :
    48 ≤ c.toNat ∧ c.toNat ≤ 57 := by
  rw [Bool.and_eq_true, decide_eq_true_eq, decide_eq_true_eq] at h
  exact ⟨h.1, h.2⟩

lemma digits_bounds (ds : List Char) (h : ds.all (fun c => '0' ≤ c && c ≤ '9') = true) :
    ∀ c ∈ ds, 48 ≤ c.toNat ∧ c.toNat ≤ 57 := by
  intro c hc
  exact digit_bounds c (by
    rw [List.all_eq_true] at h
    exact h c hc)

lemma digit_beq_false (c d : Char) (hb : 48 ≤ c.toNat ∧ c.toNat ≤ 57)
    (hd : d.toNat < 48 ∨ 57 < d.toNat) : (c == d) = false := by
  rw [beq_eq_false_iff_ne]
  intro hc
  subst hc
  omega

lemma goSplit_no_sep (c : Char) (s : List Char) (h : ∀ x ∈ s, (x == c) = false) :
    goSplit c s = [s] :=
  List.splitOnP_eq_single _ _ (fun x hx => by rw [h x hx]; exact Bool.false_ne_true)

lemma goSplit_two (c : Char) (a b : List Char) (ha : ∀ x ∈ a, (x == c) = false)
    (hb : ∀ x ∈ b, (x == c) = false) :
    goSplit c (a ++ c :: b) = [a, b] := by
  unfold goSplit
  rw [List.splitOnP_first _ _ (fun x hx => by rw [ha x hx]; exact Bool.false_ne_true) c
    (by simp), List.splitOnP_eq_single _ _
      (fun x hx => by rw [hb x hx]; exact Bool.false_ne_true)]

lemma dropWhile_append_stop (p : Char → Bool) (a b : List Char)
    (ha : ∀ x ∈ a, p x = true) : (a ++ b).dropWhile p = b.dropWhile p := by
  induction a with
  | nil => rfl
  | cons x xs ih =>
    rw [List.cons_append, List.dropWhile_cons_of_pos (ha x (List.mem_cons_self x xs))]
    exact ih fun y hy => ha y (List.mem_cons_of_mem x hy)

lemma dropWhile_eq_self_of_head (p : Char → Bool) (l r : List Char)
    (hl : ∀ x ∈ l, p x = false) (hne : l ≠ []) :
    (l ++ r).dropWhile p = l ++ r := by
  cases l with
  | nil => exact absurd rfl hne
  | cons x xs =>
    rw [List.cons_append, List.dropWhile_cons_of_neg]
    rw [hl x (List.mem_cons_self x xs)]
    exact Bool.false_ne_true

lemma takeWhile_all (p : Char → Bool) (l : List Char) (h : ∀ x ∈ l, p x = true) :
    l.takeWhile p = l := by
  induction l with
  | nil => rfl
  | cons x xs ih =>
    rw [List.takeWhile_cons_of_pos (h x (List.mem_cons_self x xs))]
    rw [ih fun y hy => h y (List.mem_cons_of_mem x hy)]

lemma takeWhile_prefix (p : Char → Bool) (a : List Char) (b : Char) (r : List Char)
    (ha : ∀ x ∈ a, p x = true) (hb : p b = false) :
    (a ++ b :: r).takeWhile p = a := by
  induction a with
  | nil =>
    rw [List.nil_append, List.takeWhile_cons_of_neg]
    rw [hb]
    exact Bool.false_ne_true
  | cons x xs ih =>
    rw [List.cons_append, List.takeWhile_cons_of_pos (ha x (List.mem_cons_self x xs))]
    rw [ih fun y hy => ha y (List.mem_cons_of_mem x hy)]

/-! ### C9 — pagination Link entries -/

/-- A well-formed Link-header entry pointing at the page whose decimal
digits are `ds`, tagged with relation `rel`. -/
def pageEntry (rel ds : List Char) : List Char :=
  "<https://e/p?page=".data ++ ds ++ (">; rel=\x22".data ++ rel ++ "\x22".data)

lemma cutset_url_contains_false (x : Char) (hb : 48 ≤ x.toNat ∧ x.toNat ≤ 57) :
    (("< >".data).contains x) = false := by
  rw [show ("< >".data) = ['<', ' ', '>'] from rfl]
  simp only [List.contains_cons, List.contains_nil, Bool.or_false]
  rw [digit_beq_false x '<' hb (by decide), digit_beq_false x ' ' hb (by decide),
    digit_beq_false x '>' hb (by decide)]
  rfl

lemma goTrim_url (ds : List Char) (hb : ∀ c ∈ ds, 48 ≤ c.toNat ∧ c.toNat ≤ 57)
    (hne : ds ≠ []) :
    goTrim ("<https://e/p?page=".data ++ ds ++ ['>']) "< >".data =
      "https://e/p?page=".data ++ ds := by
  unfold goTrim
  have h1 : (("<https://e/p?page=".data ++ ds ++ ['>']).dropWhile
      fun c => ("< >".data).contains c) = "https://e/p?page=".data ++ ds ++ ['>'] := by
    rw [show "<https://e/p?page=".data ++ ds ++ ['>'] =
        '<' :: ("https://e/p?page=".data ++ ds ++ ['>']) from rfl]
    rw [List.dropWhile_cons_of_pos (by decide)]
    rw [show "https://e/p?page=".data ++ ds ++ ['>'] =
        'h' :: ("ttps://e/p?page=".data ++ ds ++ ['>']) from rfl]
    rw [List.dropWhile_cons_of_neg (by decide)]
  rw [h1]
  have h2 : ("https://e/p?page=".data ++ ds ++ ['>']).reverse =
      '>' :: (ds.reverse ++ "https://e/p?page=".data.reverse) := by
    simp [List.reverse_append]
  rw [h2, List.dropWhile_cons_of_pos (by decide)]
  rw [dropWhile_eq_self_of_head _ ds.reverse _
    (fun x hx => cutset_url_contains_false x (hb x (List.mem_reverse.mp hx)))
    (by simpa using hne)]
  simp [List.reverse_append]

lemma goUrlParse_page (ds : List Char) (hb : ∀ c ∈ ds, 48 ≤ c.toNat ∧ c.toNat ≤ 57) :
    goUrlParse ("https://e/p?page=".data ++ ds) = Except.ok ⟨"page=".data ++ ds⟩ := by
  unfold goUrlParse
  rw [if_neg (by
    rw [List.any_append]
    have hc : ("https://e/p?page=".data.any fun c => c.toNat < 32 || c.toNat == 127) =
        false := by decide
    have hd : (ds.any fun c => c.toNat < 32 || c.toNat == 127) = false := by
      rw [List.any_eq_false]
      intro x hx
      have hx2 := hb x hx
      simp only [Bool.or_eq_true, decide_eq_true_eq, beq_iff_eq, not_or]
      omega
    rw [hc, hd]
    exact Bool.false_ne_true)]
  have hpre : (("https://e/p?page=".data ++ ds).takeWhile fun c => !(c == '#')) =
      "https://e/p?page=".data ++ ds := by
    apply takeWhile_all
    intro x hx
    rcases List.mem_append.mp hx with hx | hx
    · fin_cases hx <;> decide
    · rw [digit_beq_false x '#' (hb x hx) (by decide)]
      rfl
  have hq : (("https://e/p?page=".data ++ ds).dropWhile fun c => !(c == '?')) =
      '?' :: ("page=".data ++ ds) := by
    rw [show "https://e/p?page=".data ++ ds =
        "https://e/p".data ++ '?' :: ("page=".data ++ ds) from rfl]
    rw [dropWhile_append_stop _ _ _ (by decide)]
    rw [List.dropWhile_cons_of_neg (by decide)]
  simp only [hpre, hq, List.drop_succ_cons, List.drop_zero]

lemma queryGet_page (ds : List Char) (hb : ∀ c ∈ ds, 48 ≤ c.toNat ∧ c.toNat ≤ 57) :
    queryGet ("page=".data ++ ds) "page".data = ds := by
  unfold queryGet
  rw [goSplit_no_sep '&' _ (by
    intro x hx
    rcases List.mem_append.mp hx with hx | hx
    · fin_cases hx <;> decide
    · exact digit_beq_false x '&' (hb x hx) (by decide))]
  have hk : (("page=".data ++ ds).takeWhile fun c => !(c == '=')) = "page".data := by
    rw [show "page=".data ++ ds = "page".data ++ '=' :: ds from rfl]
    exact takeWhile_prefix _ _ '=' _ (by decide) (by decide)
  have hv : (("page=".data ++ ds).dropWhile fun c => !(c == '=')) = '=' :: ds := by
    rw [show "page=".data ++ ds = "page".data ++ '=' :: ds from rfl]
    rw [dropWhile_append_stop _ _ _ (by decide)]
    rw [List.dropWhile_cons_of_neg (by decide)]
  simp only [List.filterMap_cons, List.filterMap_nil]
  rw [if_neg (by
    rw [show "page=".data ++ ds = 'p' :: ("age=".data ++ ds) from rfl]
    exact List.cons_ne_nil _ _)]
  simp only [hk, hv, List.drop_succ_cons, List.drop_zero]
  simp

lemma relClean_eq (rel : List Char) (hq : ∀ x ∈ rel, (x == '\x22') = false) :
    (goTrim (" rel=\x22".data ++ rel ++ "\x22".data) " rel=".data).filter
      (fun c => !(c == '\x22')) = rel := by
  unfold goTrim
  have h1 : ((" rel=\x22".data ++ rel ++ "\x22".data).dropWhile
      fun c => (" rel=".data).contains c) = '\x22' :: (rel ++ ['\x22']) := by
    rw [show " rel=\x22".data ++ rel ++ "\x22".data =
        ' ' :: 'r' :: 'e' :: 'l' :: '=' :: '\x22' :: (rel ++ ['\x22']) from rfl]
    rw [List.dropWhile_cons_of_pos (by decide), List.dropWhile_cons_of_pos (by decide),
      List.dropWhile_cons_of_pos (by decide), List.dropWhile_cons_of_pos (by decide),
      List.dropWhile_cons_of_pos (by decide), List.dropWhile_cons_of_neg (by decide)]
  rw [h1]
  have h2 : ('\x22' :: (rel ++ ['\x22'])).reverse =
      '\x22' :: (rel.reverse ++ ['\x22']) := by
    simp [List.reverse_append]
  rw [h2, List.dropWhile_cons_of_neg (by decide), ← h2, List.reverse_reverse]
  rw [List.filter_cons_of_neg (by decide), List.filter_append]
  rw [List.filter_eq_self.mpr (fun x hx => by rw [hq x hx]; rfl)]
  rw [show (['\x22'].filter fun c => !(c == '\x22')) = [] from rfl, List.append_nil]

lemma parseLinkHeaderGo_entry (rel : List Char) (res : ResponseE) (ds : List Char)
    (p : Int) (hne : ds ≠ []) (hds : ds.all (fun c => '0' ≤ c && c ≤ '9') = true)
    (hp : atoi? ds = some p)
    (hsemi : ∀ x ∈ rel, (x == ';') = false)
    (hcomma : ∀ x ∈ rel, (x == ',') = false)
    (hquote : ∀ x ∈ rel, (x == '\x22') = false) :
    parseLinkHeaderGo res (pageEntry rel ds) =
      (if p = 0 then res
       else if rel = linkPrev then { res with PreviousPage := p }
       else if rel = linkNext then { res with NextPage := p }
       else if rel = linkFirst then { res with FirstPage := p }
       else if rel = linkLast then { res with LastPage := p }
       else res, none) := by
  have hb := digits_bounds ds hds
  have hcommaAll : ∀ x ∈ pageEntry rel ds, (x == ',') = false := by
    intro x hx
    unfold pageEntry at hx
    rcases List.mem_append.mp hx with hx | hx
    · rcases List.mem_append.mp hx with hx | hx
      · fin_cases hx <;> decide
      · exact digit_beq_false x ',' (hb x hx) (by decide)
    · rcases List.mem_append.mp hx with hx | hx
      · rcases List.mem_append.mp hx with hx | hx
        · fin_cases hx <;> decide
        · exact hcomma x hx
      · fin_cases hx <;> decide
  have hsplit : goSplit ';' (pageEntry rel ds) =
      ["<https://e/p?page=".data ++ ds ++ ['>'],
        " rel=\x22".data ++ rel ++ "\x22".data] := by
    rw [show pageEntry rel ds =
        ("<https://e/p?page=".data ++ ds ++ ['>']) ++
          ';' :: (" rel=\x22".data ++ rel ++ "\x22".data) from by
      simp [pageEntry, List.append_assoc]]
    refine goSplit_two ';' _ _ ?_ ?_
    · intro x hx
      rcases List.mem_append.mp hx with hx | hx
      · rcases List.mem_append.mp hx with hx | hx
        · fin_cases hx <;> decide
        · exact digit_beq_false x ';' (hb x hx) (by decide)
      · fin_cases hx <;> decide
    · intro x hx
      rcases List.mem_append.mp hx with hx | hx
      · rcases List.mem_append.mp hx with hx | hx
        · fin_cases hx <;> decide
        · exact hsemi x hx
      · fin_cases hx <;> decide
  unfold parseLinkHeaderGo
  rw [if_neg (by simp [pageEntry]), goSplit_no_sep ',' _ hcommaAll]
  simp only [parseLinkEntries, hsplit, List.length_cons, List.length_nil, List.headD_cons,
    List.getD, List.get?, List.getD_cons_succ, List.getD_cons_zero, Option.getD_some]
  rw [if_neg (by decide)]
  rw [show ([' ', 'r', 'e', 'l', '=', '\x22'] : List Char) = " rel=\x22".data from rfl,
    show (['\x22'] : List Char) = "\x22".data from rfl,
    show ([' ', 'r', 'e', 'l', '='] : List Char) = " rel=".data from rfl,
    show (['p', 'a', 'g', 'e'] : List Char) = "page".data from rfl]
  rw [goTrim_url ds hb hne, relClean_eq rel hquote, goUrlParse_page ds hb]
  dsimp only
  rw [queryGet_page ds hb, hp]
  dsimp only
  by_cases hp0 : p = 0
  · simp only [hp0, if_pos rfl, ite_true, parseLinkEntries]
  · simp only [if_neg hp0, ite_false, parseLinkEntries]

/-- C9: for every Link-header entry, the `page` query parameter is parsed
as an integer and `rel` values `prev`/`next`/`first`/`last` set the
matching envelope field; a page of exactly 0 is skipped (the field stays
zero), an unrecognized rel is ignored, and a malformed URL (here: one
containing a control character) or a non-integer page value makes the
link-parsing step report an error. -/
theorem parseLink_entry_spec :
    (∀ (res : ResponseE) (ds : List Char) (p : Int),
      ds ≠ [] → ds.all (fun c => '0' ≤ c && c ≤ '9') = true → atoi? ds = some p →
      parseLinkHeaderGo res (pageEntry linkPrev ds) =
        (if p = 0 then res else { res with PreviousPage := p }, none) ∧
      parseLinkHeaderGo res (pageEntry linkNext ds) =
        (if p = 0 then res else { res with NextPage := p }, none) ∧
      parseLinkHeaderGo res (pageEntry linkFirst ds) =
        (if p = 0 then res else { res with FirstPage := p }, none) ∧
      parseLinkHeaderGo res (pageEntry linkLast ds) =
        (if p = 0 then res else { res with LastPage := p }, none) ∧
      parseLinkHeaderGo res (pageEntry "other".data ds) = (res, none)) ∧
    (∀ res : ResponseE,
      parseLinkHeaderGo res "<https://e/\x01p?page=3>; rel=\x22next\x22".data =
        (res, some ())) ∧
    (∀ res : ResponseE,
      parseLinkHeaderGo res "<https://e/p?page=abc>; rel=\x22next\x22".data =
        (res, some ())) := by
  refine ⟨?_, fun res => rfl, fun res => rfl⟩
  intro res ds p hne hds hp
  refine ⟨?_, ?_, ?_, ?_, ?_⟩
  · rw [parseLinkHeaderGo_entry linkPrev res ds p hne hds hp (by decide) (by decide)
      (by decide)]
    by_cases hp0 : p = 0
    · simp [hp0]
    · simp only [if_neg hp0, if_pos rfl, ite_true]
  · rw [parseLinkHeaderGo_entry linkNext res ds p hne hds hp (by decide) (by decide)
      (by decide)]
    by_cases hp0 : p = 0
    · simp [hp0]
    · rw [if_neg hp0, if_neg hp0, if_neg (show ¬linkNext = linkPrev by decide),
        if_pos rfl]
  · rw [parseLinkHeaderGo_entry linkFirst res ds p hne hds hp (by decide) (by decide)
      (by decide)]
    by_cases hp0 : p = 0
    · simp [hp0]
    · rw [if_neg hp0, if_neg hp0, if_neg (show ¬linkFirst = linkPrev by decide),
        if_neg (show ¬linkFirst = linkNext by decide), if_pos rfl]
  · rw [parseLinkHeaderGo_entry linkLast res ds p hne hds hp (by decide) (by decide)
      (by decide)]
    by_cases hp0 : p = 0
    · simp [hp0]
    · rw [if_neg hp0, if_neg hp0, if_neg (show ¬linkLast = linkPrev by decide),
        if_neg (show ¬linkLast = linkNext by decide),
        if_neg (show ¬linkLast = linkFirst by decide), if_pos rfl]
  · rw [parseLinkHeaderGo_entry "other".data res ds p hne hds hp (by decide) (by decide)
      (by decide)]
    by_cases hp0 : p = 0
    · simp [hp0]
    · rw [if_neg hp0, if_neg (show ¬"other".data = linkPrev by decide),
        if_neg (show ¬"other".data = linkNext by decide),
        if_neg (show ¬"other".data = linkFirst by decide),
        if_neg (show ¬"other".data = linkLast by decide)]

/-- An empty envelope to instantiate the pagination theorems. -/
def respEmpty : ResponseE := { http := none, rl := {} }

/-- Witness for `parseLink_entry_spec`: a `rel="next"` entry with page 3
sets `NextPage = 3`. -/
theorem parseLink_entry_spec_witness :
    (['3'] : List Char) ≠ [] ∧ atoi? ['3'] = some 3 ∧
      parseLinkHeaderGo respEmpty (pageEntry linkNext ['3']) =
        (if (3 : Int) = 0 then respEmpty else { respEmpty with NextPage := 3 }, none) :=
  ⟨by decide, by decide,
    (parseLink_entry_spec.1 respEmpty ['3'] 3 (by decide) (by decide) (by decide)).2.1⟩

/-! ### C10 — envelope construction swallows link-parse failures -/

lemma parseLinkEntries_frame : ∀ (entries : List (List Char)) (res : ResponseE),
    (parseLinkEntries res entries).1.http = res.http ∧
    (parseLinkEntries res entries).1.rl = res.rl := by
  intro entries
  induction entries with
  | nil => intro res; exact ⟨rfl, rfl⟩
  | cons pair rest ih =>
    intro res
    simp only [parseLinkEntries]
    split
    · exact ih res
    · split
      · exact ⟨rfl, rfl⟩
      · split
        · exact ⟨rfl, rfl⟩
        · split
          · exact ih res
          · constructor
            · rw [(ih _).1]
              repeat' split
              all_goals rfl
            · rw [(ih _).2]
              repeat' split
              all_goals rfl

lemma parseLinkHeaderGo_frame (res : ResponseE) (l : List Char) :
    (parseLinkHeaderGo res l).1.http = res.http ∧
    (parseLinkHeaderGo res l).1.rl = res.rl := by
  unfold parseLinkHeaderGo
  split
  · exact ⟨rfl, rfl⟩
  · exact parseLinkEntries_frame _ res

/-- A Link header whose second entry has a non-integer page value. -/
def linkC10 : List Char :=
  ("<https://e/p?page=3>; rel=\x22next\x22, <https://e/p?page=abc>; rel=\x22last\x22" ++
    ", <https://e/p?page=7>; rel=\x22first\x22").data

/-- A response carrying `linkC10`. -/
def respC10 : HttpResp :=
  { StatusCode := 200, headers := fun k => if k = "Link" then linkC10 else [] }

/-- C10: `buildResponse` never fails — a nil response yields the zero
envelope, the envelope always embeds the given response and rate limit,
and a Link header whose second entry is malformed still yields an
envelope: the field assigned before the malformed entry is kept
(`NextPage = 3`), the malformed and following entries are dropped
(`LastPage = FirstPage = 0`), and the parse error that the link step
reported is swallowed (it does not appear in `buildResponse`'s result,
whose type carries no error). -/
theorem buildResponse_total_and_swallows :
    (∀ rl : RateLimit, buildResponse none rl = { http := none, rl := {} }) ∧
    (∀ (h : HttpResp) (rl : RateLimit),
      (buildResponse (some h) rl).http = some h ∧ (buildResponse (some h) rl).rl = rl) ∧
    ((buildResponse (some respC10) {}).NextPage = 3 ∧
      (buildResponse (some respC10) {}).LastPage = 0 ∧
      (buildResponse (some respC10) {}).FirstPage = 0 ∧
      (parseLinkHeaderGo { http := some respC10, rl := {} }
        (respC10.headers "Link")).2 = some ()) := by
  refine ⟨fun rl => rfl, ?_, ?_⟩
  · intro h rl
    simp only [buildResponse]
    split
    · exact ⟨(parseLinkHeaderGo_frame _ _).1, (parseLinkHeaderGo_frame _ _).2⟩
    · exact ⟨rfl, rfl⟩
  · refine ⟨?_, ?_, ?_, ?_⟩ <;> decide

end Github
